import Mathlib

/-!
# LingoLens — verification of the realtime session service

Shallow embedding of `src/services/geminiLiveService.ts`:
the PCM codec (`createBlob` / `decodeAudioData`), the playback scheduler,
the transcript aggregator and the session controller (`connect`,
`handleMessage`, `disconnect`, `sendVideoFrame`, audio sends).

Machine reals are modelled as rationals: every float32 sample and every
audio-clock value that occurs in the verified paths is a dyadic rational,
and multiplication/division by 32768 and the comparisons used by the
scheduler are exact in both float64 and ℚ.
-/

/-! ## PCM codec (`createBlob`, `decodeAudioData`, `encode`/`decode` elided:
the base64 leg belongs to the Transport layer per the spec and cancels on
the round trip). -/

/-- Truncation toward zero of a rational, as JavaScript's ToInt16 first step
(`data[i] * 32768` converted to an integer). -/
def ratTrunc (q : ℚ) : ℤ :=
  if 0 ≤ q.num then ((q.num.toNat / q.den : ℕ) : ℤ)
  else -(((-q.num).toNat / q.den : ℕ) : ℤ)

/-- JavaScript ToInt16: wrap an integer modulo 2^16 into [-32768, 32767],
as performed by the `Int16Array` element store in `createBlob`. -/
def toInt16 (n : ℤ) : ℤ :=
  let u := n % 65536
  if u < 32768 then u else u - 65536

/-- One sample of `createBlob`: `int16[i] = data[i] * 32768` (no clamping in
the source; the multiply is exact, the store truncates and wraps). -/
def encodeSample (x : ℚ) : ℤ := toInt16 (ratTrunc (x * 32768))

/-- Little-endian byte pair of a 16-bit signed value, as laid out in the
`Int16Array` buffer handed to the transport by `createBlob`. -/
def int16ToBytes (n : ℤ) : List ℕ :=
  let u := (n % 65536).toNat
  [u % 256, u / 256]

/-- `createBlob` restricted to its PCM payload: float samples to the
little-endian int16 byte stream (the base64 transport encoding is applied
outside the codec). -/
def encodeBlock (data : List ℚ) : List ℕ :=
  (data.map (fun x => int16ToBytes (encodeSample x))).flatten

/-- Reinterpret two bytes as a little-endian 16-bit signed integer, as the
`Int16Array(data.buffer)` view in `decodeAudioData` does. -/
def signed16 (lo hi : ℕ) : ℤ :=
  let u := lo % 256 + 256 * (hi % 256)
  if u < 32768 then (u : ℤ) else (u : ℤ) - 65536

/-- The `Int16Array` view of a byte stream (little-endian pairs; a trailing
odd byte cannot occur on data produced by the codec). -/
def bytesToInt16 : List ℕ → List ℤ
  | lo :: hi :: rest => signed16 lo hi :: bytesToInt16 rest
  | _ => []

/-- `decodeAudioData(data, ctx, sampleRate, numChannels)`: de-interleave the
int16 view into `numChannels` channels and scale each sample by `1/32768`.
The sample-rate argument only tags the produced buffer. -/
def decodeAudioData (bytes : List ℕ) (_sampleRate : ℕ) (numChannels : ℕ) :
    List (List ℚ) :=
  let dataInt16 := bytesToInt16 bytes
  let frameCount := dataInt16.length / numChannels
  (List.range numChannels).map (fun channel =>
    (List.range frameCount).map (fun i =>
      ((dataInt16.getD (i * numChannels + channel) 0 : ℚ)) / 32768))

/-- The quantization the spec attributes to the codec: scale by 32768,
truncate toward zero, scale back. -/
def quantize (x : ℚ) : ℚ := ((ratTrunc (x * 32768) : ℤ) : ℚ) / 32768

/-- `AudioBuffer.duration` of a decoded chunk: frame count over sample rate. -/
def audioDuration (bytes : List ℕ) (sampleRate numChannels : ℕ) : ℚ :=
  (((bytesToInt16 bytes).length / numChannels : ℕ) : ℚ) / (sampleRate : ℚ)

/-! ## Session controller state (the fields of `GeminiLiveService`)

`sessionPromise` is modelled as a three-state handle: `null`, `pending`
(connect issued, promise unresolved — `.then` callbacks queue and fire on
resolution, which is how sends issued in that window are delivered), and
`resolved` (session object available). Audio contexts are `none` (null) or
`some b` with `b = true` while open. The remote session's received sends
are recorded in `sentToSession`; UI callbacks and playback-node calls are
recorded as an effect list. -/

inductive Speaker
  | user
  | model
deriving DecidableEq

/-- `TranscriptionItem` restricted to the fields the claims speak about
(`id` and `timestamp` are wall-clock synthesized). -/
structure TItem where
  speaker : Speaker
  text : String
deriving DecidableEq

inductive SendData
  | video (d : String)
  | audio (bytes : List ℕ)
deriving DecidableEq

inductive SessionP
  | null
  | pending (queued : List SendData)
  | resolved
deriving DecidableEq

inductive Status
  | connected
  | disconnected
  | error
deriving DecidableEq

inductive Effect
  | statusChange (s : Status)
  | emitItem (it : TItem)
  | audioLevel (l : ℚ)
  | startSource (id : ℕ) (t : ℚ) (dur : ℚ)
  | stopSource (id : ℕ)
  | closeSession
deriving DecidableEq

structure GLSState where
  sessionP : SessionP
  inputCtxOpen : Option Bool
  outputCtxOpen : Option Bool
  nextStartTime : ℚ
  sources : List ℕ
  nextId : ℕ
  currentInputTranscription : String
  currentOutputTranscription : String
  sentToSession : List SendData
deriving DecidableEq

/-- The freshly constructed service: no session, no audio contexts. -/
def initState : GLSState :=
  { sessionP := SessionP.null
    inputCtxOpen := none
    outputCtxOpen := none
    nextStartTime := 0
    sources := []
    nextId := 0
    currentInputTranscription := ""
    currentOutputTranscription := ""
    sentToSession := [] }

/-- Inbound `LiveServerMessage`, restricted to the `serverContent` fields
`handleMessage` reads; `audioBytes` is the model-turn inline audio after the
base64 transport decode. -/
structure ServerMsg where
  outputTranscription : Option String := none
  inputTranscription : Option String := none
  turnComplete : Bool := false
  audioBytes : Option (List ℕ) := none
  interrupted : Bool := false

/-- JavaScript `String.prototype.trim` on the character list: strip leading
and trailing whitespace. `handleMessage` only tests the result for
truthiness (non-emptiness). -/
def trimmedChars (s : String) : List Char :=
  ((s.data.dropWhile Char.isWhitespace).reverse.dropWhile Char.isWhitespace).reverse

/-- Step 1 of `handleMessage`: the `if/else if` that appends an inbound
fragment — `outputTranscription` wins, `inputTranscription` is only read
when no output fragment is present. -/
def appendTranscription (st : GLSState) (m : ServerMsg) : GLSState :=
  match m.outputTranscription with
  | some t => { st with currentOutputTranscription := st.currentOutputTranscription ++ t }
  | none =>
    match m.inputTranscription with
    | some t => { st with currentInputTranscription := st.currentInputTranscription ++ t }
    | none => st

/-- The `turnComplete` block of `handleMessage`: emit the user item then the
model item, each only when its accumulator trims to non-empty, clearing
each emitted accumulator. -/
def flushTurn (st : GLSState) : GLSState × List Effect :=
  let p1 :=
    if trimmedChars st.currentInputTranscription ≠ [] then
      (({ st with currentInputTranscription := "" } : GLSState),
       [Effect.emitItem { speaker := Speaker.user, text := st.currentInputTranscription }])
    else (st, ([] : List Effect))
  if trimmedChars p1.1.currentOutputTranscription ≠ [] then
    (({ p1.1 with currentOutputTranscription := "" } : GLSState),
     p1.2 ++ [Effect.emitItem { speaker := Speaker.model, text := p1.1.currentOutputTranscription }])
  else p1

/-- Step 2 of `handleMessage`: on inline audio (non-empty base64 data, output
context and node present) raise the cursor to `max(cursor, now)`, start a
fresh source there, advance the cursor by the buffer's duration, and add the
source to the in-flight set. -/
def handleAudio (st : GLSState) (m : ServerMsg) (now : ℚ) : GLSState × List Effect :=
  match m.audioBytes with
  | some bs =>
    if bs ≠ [] ∧ st.outputCtxOpen.isSome then
      let ns := max st.nextStartTime now
      let dur := audioDuration bs 24000 1
      (({ st with nextStartTime := ns + dur
                  sources := st.sources ++ [st.nextId]
                  nextId := st.nextId + 1 } : GLSState),
       [Effect.audioLevel (3 / 10), Effect.startSource st.nextId ns dur])
    else (st, [])
  | none => (st, [])

/-- Step 3 of `handleMessage`: on `interrupted`, stop and remove every
in-flight source, zero the cursor, and discard the pending model text. -/
def handleInterruption (st : GLSState) (m : ServerMsg) : GLSState × List Effect :=
  if m.interrupted then
    (({ st with sources := []
                nextStartTime := 0
                currentOutputTranscription := "" } : GLSState),
     st.sources.map Effect.stopSource)
  else (st, [])

/-- `handleMessage`: transcription accumulation and flush, then audio
scheduling, then interruption — in source order. -/
def handleMessage (st : GLSState) (m : ServerMsg) (now : ℚ) : GLSState × List Effect :=
  let st1 := appendTranscription st m
  let p2 := if m.turnComplete then flushTurn st1 else (st1, [])
  let p3 := handleAudio p2.1 m now
  let p4 := handleInterruption p3.1 m
  (p4.1, p2.2 ++ p3.2 ++ p4.2)

/-- `AudioContext.close()` as seen from the controller: a live context
becomes closed; closing an already-closed or absent context changes
nothing (the rejected promise is unobserved). -/
def closeCtx : Option Bool → Option Bool
  | none => none
  | some _ => some false

/-- A send through `sessionPromise?.then(...)`: dropped when the promise is
null, queued on the promise when pending, delivered when resolved. -/
def doSend (st : GLSState) (d : SendData) : GLSState :=
  match st.sessionP with
  | SessionP.null => st
  | SessionP.pending q => { st with sessionP := SessionP.pending (q ++ [d]) }
  | SessionP.resolved => { st with sentToSession := st.sentToSession ++ [d] }

/-- Controller-level events: the public operations and the transport
callbacks (`onopen`/`onerror`/`onclose`/`onmessage`). `opened` both fires
the open callback and resolves the session promise, flushing any sends
queued on it. -/
inductive CEvent
  | connect
  | opened
  | errored
  | closed
  | disconnect
  | sendVideoFrame (d : String)
  | sendAudioChunk (samples : List ℚ)
  | message (m : ServerMsg) (now : ℚ)

def stepEvent (st : GLSState) (e : CEvent) : GLSState × List Effect :=
  match e with
  | CEvent.connect =>
    (({ st with currentInputTranscription := ""
                currentOutputTranscription := ""
                inputCtxOpen := some true
                outputCtxOpen := some true
                sessionP := SessionP.pending [] } : GLSState), [])
  | CEvent.opened =>
    match st.sessionP with
    | SessionP.pending q =>
      (({ st with sessionP := SessionP.resolved
                  sentToSession := st.sentToSession ++ q } : GLSState),
       [Effect.statusChange Status.connected])
    | _ =>
      (({ st with sessionP := SessionP.resolved } : GLSState),
       [Effect.statusChange Status.connected])
  | CEvent.errored => (st, [Effect.statusChange Status.error])
  | CEvent.closed => (st, [Effect.statusChange Status.disconnected])
  | CEvent.disconnect =>
    (({ st with sessionP := SessionP.null
                inputCtxOpen := closeCtx st.inputCtxOpen
                outputCtxOpen := closeCtx st.outputCtxOpen } : GLSState),
     (match st.sessionP with
      | SessionP.resolved => [Effect.closeSession]
      | _ => []) ++ [Effect.statusChange Status.disconnected])
  | CEvent.sendVideoFrame d => (doSend st (SendData.video d), [])
  | CEvent.sendAudioChunk samples => (doSend st (SendData.audio (encodeBlock samples)), [])
  | CEvent.message m now => handleMessage st m now

/-- A trace of controller events, accumulating the emitted effects. -/
def runEvents (st : GLSState) : List CEvent → GLSState × List Effect
  | [] => (st, [])
  | e :: rest =>
    let p := stepEvent st e
    let r := runEvents p.1 rest
    (r.1, p.2 ++ r.2)

/-! ## Message shapes used by the claims -/

/-- A model-turn message carrying only inline audio. -/
def mkAudioMsg (bs : List ℕ) : ServerMsg := { audioBytes := some bs }

/-- A message carrying only the `interrupted` flag. -/
def interruptMsg : ServerMsg := { interrupted := true }

/-- A message carrying only `turnComplete`. -/
def turnCompleteMsg : ServerMsg := { turnComplete := true }

/-- A streaming transcription fragment for one speaker. -/
def mkFragment : Speaker → String → ServerMsg
  | Speaker.user, t => { inputTranscription := some t }
  | Speaker.model, t => { outputTranscription := some t }

/-- Drive a sequence of audio-only messages `(bytes, clockNow)` through
`handleMessage`, collecting each committed `(startTime, duration, clockNow)`
from the emitted `source.start` effects. -/
def scheduledUnits (st : GLSState) : List (List ℕ × ℚ) → List (ℚ × ℚ × ℚ)
  | [] => []
  | (bs, now) :: rest =>
    ((handleMessage st (mkAudioMsg bs) now).2.filterMap fun e =>
      match e with
      | Effect.startSource _ t dur => some (t, dur, now)
      | _ => none) ++ scheduledUnits (handleMessage st (mkAudioMsg bs) now).1 rest

/-! ## Transcript aggregation (C4) -/

/-- Run a list of inbound messages through `handleMessage` at a fixed clock,
threading the state and concatenating the emitted effects. -/
def runMessages (st : GLSState) (now : ℚ) : List ServerMsg → GLSState × List Effect
  | [] => (st, [])
  | m :: rest =>
    ((runMessages (handleMessage st m now).1 now rest).1,
     (handleMessage st m now).2 ++ (runMessages (handleMessage st m now).1 now rest).2)

/-- Concatenation, in streaming order, of one speaker's fragments. -/
def concatFor (sp : Speaker) : List (Speaker × String) → String
  | [] => ""
  | f :: rest => (if f.1 = sp then f.2 else "") ++ concatFor sp rest

/-- A connected controller (session resolved, both audio contexts open). -/
def readyState : GLSState :=
  { initState with
      sessionP := SessionP.resolved
      inputCtxOpen := some true
      outputCtxOpen := some true }

/-- A state mid-session with pending transcript text and an advanced
playback cursor. -/
def c7State : GLSState :=
  { sessionP := SessionP.resolved
    inputCtxOpen := some true
    outputCtxOpen := some true
    nextStartTime := 5
    sources := []
    nextId := 0
    currentInputTranscription := "hi"
    currentOutputTranscription := "yo"
    sentToSession := [] }

/-! ## Theorems -/

/-! ### Codec lemmas -/

theorem toInt16_def (n : ℤ) :
    toInt16 n = if n % 65536 < 32768 then n % 65536 else n % 65536 - 65536 := rfl

theorem signed16_def (lo hi : ℕ) :
    signed16 lo hi =
      if lo % 256 + 256 * (hi % 256) < 32768 then ((lo % 256 + 256 * (hi % 256) : ℕ) : ℤ)
      else ((lo % 256 + 256 * (hi % 256) : ℕ) : ℤ) - 65536 := rfl

theorem int16ToBytes_def (m : ℤ) :
    int16ToBytes m = [(m % 65536).toNat % 256, (m % 65536).toNat / 256] := rfl

theorem ratTrunc_neg (q : ℚ) : ratTrunc (-q) = -(ratTrunc q) := by
  unfold ratTrunc
  rw [Rat.neg_num, Rat.neg_den]
  rcases lt_trichotomy q.num 0 with h | h | h
  · rw [if_pos (by omega), if_neg (by omega)]
    simp
  · simp [h]
  · rw [if_neg (by omega), if_pos (by omega)]
    simp

theorem ratTrunc_spec_nonneg (q : ℚ) (hq : 0 ≤ q) :
    0 ≤ ratTrunc q ∧ ((ratTrunc q : ℤ) : ℚ) ≤ q ∧ q < ((ratTrunc q : ℤ) : ℚ) + 1 := by
  have hnum : (0 : ℤ) ≤ q.num := Rat.num_nonneg.mpr hq
  have hden : (0 : ℕ) < q.den := q.pos
  have htn : ((q.num.toNat : ℤ)) = q.num := Int.toNat_of_nonneg hnum
  have hqeq : q = ((q.num.toNat : ℚ)) / ((q.den : ℚ)) := by
    have h1 : ((q.num : ℚ) / (q.den : ℚ)) = q := Rat.num_div_den q
    have h2 : ((q.num.toNat : ℚ)) = ((q.num : ℚ)) := by exact_mod_cast htn
    rw [h2, h1]
  have hdQ : (0 : ℚ) < (q.den : ℚ) := by exact_mod_cast hden
  unfold ratTrunc
  rw [if_pos hnum]
  set k : ℕ := q.num.toNat / q.den with hk
  have hlow : k * q.den ≤ q.num.toNat := Nat.div_mul_le_self _ _
  have hhigh : q.num.toNat < k * q.den + q.den := Nat.lt_div_mul_add hden
  refine ⟨by positivity, ?_, ?_⟩
  · rw [hqeq, le_div_iff₀ hdQ]
    exact_mod_cast hlow
  · rw [hqeq, div_lt_iff₀ hdQ]
    push_cast
    have hh : ((q.num.toNat : ℚ)) < (k : ℚ) * (q.den : ℚ) + (q.den : ℚ) := by exact_mod_cast hhigh
    nlinarith [hh]

theorem ratTrunc_spec_nonpos (q : ℚ) (hq : q ≤ 0) :
    ratTrunc q ≤ 0 ∧ q ≤ ((ratTrunc q : ℤ) : ℚ) ∧ ((ratTrunc q : ℤ) : ℚ) - 1 < q := by
  obtain ⟨h1, h2, h3⟩ := ratTrunc_spec_nonneg (-q) (by linarith)
  rw [ratTrunc_neg] at h1 h2 h3
  push_cast at h2 h3
  refine ⟨by omega, by linarith, by linarith⟩

theorem toInt16_of_bounds (n : ℤ) (h1 : -32768 ≤ n) (h2 : n ≤ 32767) :
    toInt16 n = n := by
  rw [toInt16_def]
  split <;> omega

theorem signed16_int16ToBytes (n : ℤ) (h1 : -32768 ≤ n) (h2 : n ≤ 32767) :
    signed16 ((n % 65536).toNat % 256) ((n % 65536).toNat / 256) = n := by
  rw [signed16_def]
  split <;> omega

theorem ratTrunc_bounds_of_sample (x : ℚ) (h1 : -1 ≤ x) (h2 : x < 1) :
    -32768 ≤ ratTrunc (x * 32768) ∧ ratTrunc (x * 32768) ≤ 32767 := by
  rcases le_or_lt 0 (x * 32768) with hy | hy
  · obtain ⟨hnn, hle, _⟩ := ratTrunc_spec_nonneg (x * 32768) hy
    constructor
    · omega
    · have : ((ratTrunc (x * 32768) : ℤ) : ℚ) < 32768 := by nlinarith
      have : ratTrunc (x * 32768) < 32768 := by exact_mod_cast this
      omega
  · obtain ⟨hnp, hge, _⟩ := ratTrunc_spec_nonpos (x * 32768) (le_of_lt hy)
    constructor
    · have : (-32768 : ℚ) ≤ ((ratTrunc (x * 32768) : ℤ) : ℚ) := by nlinarith
      exact_mod_cast this
    · omega

theorem encodeSample_eq_ratTrunc (x : ℚ) (h1 : -1 ≤ x) (h2 : x < 1) :
    encodeSample x = ratTrunc (x * 32768) := by
  obtain ⟨hl, hr⟩ := ratTrunc_bounds_of_sample x h1 h2
  exact toInt16_of_bounds _ hl hr

theorem quantize_close (x : ℚ) (h1 : -1 ≤ x) (h2 : x < 1) :
    |quantize x - x| < 1 / 32768 := by
  unfold quantize
  rcases le_or_lt 0 (x * 32768) with hy | hy
  · obtain ⟨_, hle, hlt⟩ := ratTrunc_spec_nonneg (x * 32768) hy
    rw [abs_sub_lt_iff]
    constructor <;> nlinarith
  · obtain ⟨_, hge, hgt⟩ := ratTrunc_spec_nonpos (x * 32768) (le_of_lt hy)
    rw [abs_sub_lt_iff]
    constructor <;> nlinarith

theorem bytesToInt16_cons2 (x y : ℕ) (bs : List ℕ) :
    bytesToInt16 (x :: y :: bs) = signed16 x y :: bytesToInt16 bs := rfl

theorem bytesToInt16_encodeBlock (xs : List ℚ) (h : ∀ x ∈ xs, -1 ≤ x ∧ x < 1) :
    bytesToInt16 (encodeBlock xs) = xs.map (fun x => ratTrunc (x * 32768)) := by
  induction xs with
  | nil => rfl
  | cons a rest ih =>
    have ha := h a (List.mem_cons_self a rest)
    have hrest : ∀ x ∈ rest, -1 ≤ x ∧ x < 1 :=
      fun x hx => h x (List.mem_cons_of_mem a hx)
    obtain ⟨hl, hr⟩ := ratTrunc_bounds_of_sample a ha.1 ha.2
    have hstep : encodeBlock (a :: rest) =
        ((encodeSample a % 65536).toNat % 256) ::
          (((encodeSample a % 65536).toNat / 256) :: encodeBlock rest) := by
      simp [encodeBlock, int16ToBytes_def]
    rw [hstep, bytesToInt16_cons2, encodeSample_eq_ratTrunc a ha.1 ha.2,
        signed16_int16ToBytes _ hl hr, List.map_cons, ih hrest]

theorem range_map_getD {α : Type} (l : List α) (d : α) :
    (List.range l.length).map (fun i => l.getD i d) = l := by
  induction l with
  | nil => rfl
  | cons a rest ih =>
    rw [List.length_cons, List.range_succ_eq_map, List.map_cons, List.map_map]
    have hcomp : ((fun i => (a :: rest).getD i d) ∘ Nat.succ) = (fun i => rest.getD i d) := by
      funext i
      simp
    rw [List.getD_cons_zero, hcomp, ih]

theorem decodeAudioData_one_channel (bytes : List ℕ) :
    decodeAudioData bytes 24000 1
      = [(bytesToInt16 bytes).map (fun n : ℤ => ((n : ℚ)) / 32768)] := by
  have hmap : (List.range (bytesToInt16 bytes).length).map
      (fun i => (((bytesToInt16 bytes).getD i 0 : ℤ) : ℚ) / 32768)
      = (bytesToInt16 bytes).map (fun n : ℤ => ((n : ℚ)) / 32768) := by
    rw [show (fun i => (((bytesToInt16 bytes).getD i 0 : ℤ) : ℚ) / 32768)
          = ((fun n : ℤ => ((n : ℚ)) / 32768) ∘ (fun i => (bytesToInt16 bytes).getD i 0)) from rfl,
        ← List.map_map, range_map_getD]
  unfold decodeAudioData
  simp only [Nat.div_one, show List.range 1 = [0] from rfl, List.map_cons, List.map_nil,
    Nat.mul_one, Nat.add_zero]
  rw [hmap]

theorem encodeSample_one : encodeSample (1 : ℚ) = -32768 := by
  have h1 : ((1 : ℚ) * 32768) = ((32768 : ℕ) : ℚ) := by norm_num
  have h2 : ratTrunc (((32768 : ℕ) : ℚ)) = 32768 := by
    unfold ratTrunc
    rw [Rat.num_natCast, Rat.den_natCast]
    decide
  rw [encodeSample, h1, h2]
  decide

/-- **C1, counterexample.** The spec's PCM round-trip claim fails at the
in-range sample `1.0`: `createBlob` does not clamp, `1.0 * 32768 = 32768`
wraps to `-32768` in the `Int16Array` store, and decoding returns `-1.0`,
while quantization of `1.0` to 1/32768 precision is `1.0` itself. -/
theorem c1_counterexample :
    decodeAudioData (encodeBlock [(1 : ℚ)]) 24000 1 = [[(-1 : ℚ)]] ∧
    [(1 : ℚ)].map quantize = [(1 : ℚ)] ∧
    decodeAudioData (encodeBlock [(1 : ℚ)]) 24000 1 ≠ [[(1 : ℚ)].map quantize] := by
  have hq1 : quantize (1 : ℚ) = 1 := by
    unfold quantize
    have h1 : ((1 : ℚ) * 32768) = ((32768 : ℕ) : ℚ) := by norm_num
    have h2 : ratTrunc (((32768 : ℕ) : ℚ)) = 32768 := by
      unfold ratTrunc
      rw [Rat.num_natCast, Rat.den_natCast]
      decide
    rw [h1, h2]
    norm_num
  have hbl : encodeBlock [(1 : ℚ)] = [0, 128] := by
    rw [show encodeBlock [(1 : ℚ)] = int16ToBytes (encodeSample 1) ++ [] from rfl,
        encodeSample_one]
    decide
  have hbytes : bytesToInt16 [0, 128] = [-32768] := by decide
  have hdec : decodeAudioData (encodeBlock [(1 : ℚ)]) 24000 1 = [[(-1 : ℚ)]] := by
    rw [hbl, decodeAudioData_one_channel, hbytes]
    norm_num
  refine ⟨hdec, by rw [List.map_cons, List.map_nil, hq1], ?_⟩
  rw [hdec, List.map_cons, List.map_nil, hq1]
  decide

/-- **C1 (amended).** For samples in the half-open interval `[-1, 1)` the
round trip `decodeAudioData ∘ createBlob` (matching rate, one channel)
returns exactly the input quantized by truncation to 1/32768 precision, in
order; each output differs from its input by less than `1/32768`. At the
endpoint `1.0` the unclamped scale-and-store wraps instead (see the
counterexample), so the spec's closed interval `[-1, 1]` must be narrowed. -/
theorem c1_theorem (xs : List ℚ) (h : ∀ x ∈ xs, -1 ≤ x ∧ x < 1) :
    decodeAudioData (encodeBlock xs) 24000 1 = [xs.map quantize] ∧
    ∀ x ∈ xs, |quantize x - x| < 1 / 32768 := by
  constructor
  · rw [decodeAudioData_one_channel, bytesToInt16_encodeBlock xs h, List.map_map]
    rfl
  · intro x hx
    exact quantize_close x (h x hx).1 (h x hx).2

/-- **C1, witness.** Concrete instance of the amended round trip. -/
theorem c1_witness :
    (∀ x ∈ [(-1 : ℚ), 0], -1 ≤ x ∧ x < 1) ∧
    (decodeAudioData (encodeBlock [(-1 : ℚ), 0]) 24000 1 = [[(-1 : ℚ), 0].map quantize] ∧
     ∀ x ∈ [(-1 : ℚ), 0], |quantize x - x| < 1 / 32768) :=
  ⟨by decide, c1_theorem [(-1 : ℚ), 0] (by decide)⟩

/-! ### Step lemmas for `handleMessage` -/

theorem handleMessage_audio (st : GLSState) (bs : List ℕ) (now : ℚ)
    (hbs : bs ≠ []) (hctx : st.outputCtxOpen.isSome) :
    handleMessage st (mkAudioMsg bs) now =
      (({ st with nextStartTime := max st.nextStartTime now + audioDuration bs 24000 1
                  sources := st.sources ++ [st.nextId]
                  nextId := st.nextId + 1 } : GLSState),
       [Effect.audioLevel (3 / 10),
        Effect.startSource st.nextId (max st.nextStartTime now) (audioDuration bs 24000 1)]) := by
  unfold handleMessage appendTranscription handleAudio handleInterruption mkAudioMsg
  simp [hbs, hctx]

theorem handleMessage_interrupt (st : GLSState) (now : ℚ) :
    handleMessage st interruptMsg now =
      (({ st with sources := []
                  nextStartTime := 0
                  currentOutputTranscription := "" } : GLSState),
       st.sources.map Effect.stopSource) := by
  unfold handleMessage appendTranscription handleAudio handleInterruption interruptMsg
  simp

theorem audioDuration_nonneg (bs : List ℕ) : (0 : ℚ) ≤ audioDuration bs 24000 1 := by
  unfold audioDuration
  positivity

theorem scheduledUnits_invariant (evs : List (List ℕ × ℚ)) :
    ∀ st : GLSState, st.outputCtxOpen.isSome → (∀ p ∈ evs, p.1 ≠ []) →
      List.Chain' (fun a b : ℚ × ℚ × ℚ => a.1 + a.2.1 ≤ b.1) (scheduledUnits st evs) ∧
      List.Chain' (fun a b : ℚ × ℚ × ℚ => a.1 ≤ b.1) (scheduledUnits st evs) ∧
      ∀ u ∈ scheduledUnits st evs,
        u.2.2 ≤ u.1 ∧ st.nextStartTime ≤ u.1 ∧ 0 ≤ u.2.1 := by
  induction evs with
  | nil =>
    intro st _ _
    exact ⟨List.chain'_nil, List.chain'_nil, by intro u hu; simp [scheduledUnits] at hu⟩
  | cons ev rest ih =>
    intro st hctx hbs
    obtain ⟨bs, now⟩ := ev
    have hbs0 : bs ≠ [] := hbs (bs, now) (List.mem_cons_self _ _)
    have hrest : ∀ p ∈ rest, p.1 ≠ [] := fun p hp => hbs p (List.mem_cons_of_mem _ hp)
    have hstep := handleMessage_audio st bs now hbs0 hctx
    have hunits : scheduledUnits st ((bs, now) :: rest) =
        (max st.nextStartTime now, audioDuration bs 24000 1, now) ::
          scheduledUnits (handleMessage st (mkAudioMsg bs) now).1 rest := by
      rw [scheduledUnits, hstep]
      simp [List.filterMap]
    have hctx' : (handleMessage st (mkAudioMsg bs) now).1.outputCtxOpen.isSome := by
      rw [hstep]
      simpa using hctx
    have hcur : (handleMessage st (mkAudioMsg bs) now).1.nextStartTime
        = max st.nextStartTime now + audioDuration bs 24000 1 := by rw [hstep]
    obtain ⟨ihc1, ihc2, ihmem⟩ := ih (handleMessage st (mkAudioMsg bs) now).1 hctx' hrest
    have hd0 := audioDuration_nonneg bs
    refine ⟨?_, ?_, ?_⟩
    · rw [hunits, List.chain'_cons']
      refine ⟨?_, ihc1⟩
      intro b hb
      have hbmem := List.mem_of_mem_head? hb
      have hbound := (ihmem b hbmem).2.1
      rw [hcur] at hbound
      simpa using hbound
    · rw [hunits, List.chain'_cons']
      refine ⟨?_, ihc2⟩
      intro b hb
      have hbmem := List.mem_of_mem_head? hb
      have hbound := (ihmem b hbmem).2.1
      rw [hcur] at hbound
      simp only []
      linarith
    · rw [hunits]
      intro u hu
      rcases List.mem_cons.mp hu with h | h
      · subst h
        exact ⟨le_max_right _ _, le_max_left _ _, hd0⟩
      · obtain ⟨hu1, hu2, hu3⟩ := ihmem u h
        rw [hcur] at hu2
        refine ⟨hu1, ?_, hu3⟩
        have := le_max_left st.nextStartTime now
        linarith

/-- **C2.** Audio playback scheduling without interruption: each decoded
buffer is scheduled at `max(cursor, outputClockNow)` and the cursor then
advances by the buffer's duration; over any run of scheduled units the
committed start times are non-decreasing, each unit starts no earlier than
the previous unit's end, and no unit starts before the clock value at its
scheduling instant. -/
theorem c2_theorem (st : GLSState) (evs : List (List ℕ × ℚ)) (bs : List ℕ) (now : ℚ)
    (hctx : st.outputCtxOpen.isSome) (hevs : ∀ p ∈ evs, p.1 ≠ []) (hbs : bs ≠ []) :
    handleMessage st (mkAudioMsg bs) now =
      (({ st with nextStartTime := max st.nextStartTime now + audioDuration bs 24000 1
                  sources := st.sources ++ [st.nextId]
                  nextId := st.nextId + 1 } : GLSState),
       [Effect.audioLevel (3 / 10),
        Effect.startSource st.nextId (max st.nextStartTime now) (audioDuration bs 24000 1)]) ∧
    List.Chain' (fun a b : ℚ × ℚ × ℚ => a.1 + a.2.1 ≤ b.1) (scheduledUnits st evs) ∧
    List.Chain' (fun a b : ℚ × ℚ × ℚ => a.1 ≤ b.1) (scheduledUnits st evs) ∧
    ∀ u ∈ scheduledUnits st evs, u.2.2 ≤ u.1 := by
  obtain ⟨h1, h2, h3⟩ := scheduledUnits_invariant evs st hctx hevs
  exact ⟨handleMessage_audio st bs now hbs hctx, h1, h2, fun u hu => (h3 u hu).1⟩


theorem c2_witness :
    ((readyState.outputCtxOpen.isSome) ∧
     (∀ p ∈ [([0, 0], (0 : ℚ)), ([1, 2, 3, 4], 1)], p.1 ≠ []) ∧
     ([5, 6] : List ℕ) ≠ []) ∧
    (handleMessage readyState (mkAudioMsg [5, 6]) 2 =
      (({ readyState with
            nextStartTime := max readyState.nextStartTime 2 + audioDuration [5, 6] 24000 1
            sources := readyState.sources ++ [readyState.nextId]
            nextId := readyState.nextId + 1 } : GLSState),
       [Effect.audioLevel (3 / 10),
        Effect.startSource readyState.nextId (max readyState.nextStartTime 2)
          (audioDuration [5, 6] 24000 1)]) ∧
     List.Chain' (fun a b : ℚ × ℚ × ℚ => a.1 + a.2.1 ≤ b.1)
       (scheduledUnits readyState [([0, 0], 0), ([1, 2, 3, 4], 1)]) ∧
     List.Chain' (fun a b : ℚ × ℚ × ℚ => a.1 ≤ b.1)
       (scheduledUnits readyState [([0, 0], 0), ([1, 2, 3, 4], 1)]) ∧
     ∀ u ∈ scheduledUnits readyState [([0, 0], 0), ([1, 2, 3, 4], 1)], u.2.2 ≤ u.1) :=
  ⟨⟨by decide, by decide, by decide⟩,
   c2_theorem readyState [([0, 0], 0), ([1, 2, 3, 4], 1)] [5, 6] 2
     (by decide) (by decide) (by decide)⟩

/-- **C3.** Processing an interruption event stops every in-flight unit
(one `stop` per previously in-flight source, and nothing else), empties the
in-flight set, zeroes the cursor, and discards the pending model-turn text;
afterwards the next scheduled unit starts exactly at the output clock's
current reading `now2` (so at a time `≥` the clock and, the clock being
non-negative, never negative). -/
theorem c3_theorem (st : GLSState) (now now2 : ℚ) (bs : List ℕ)
    (hnow2 : 0 ≤ now2) (hbs : bs ≠ []) (hctx : st.outputCtxOpen.isSome) :
    (handleMessage st interruptMsg now).1.sources = [] ∧
    (handleMessage st interruptMsg now).1.nextStartTime = 0 ∧
    (handleMessage st interruptMsg now).1.currentOutputTranscription = "" ∧
    (handleMessage st interruptMsg now).2 = st.sources.map Effect.stopSource ∧
    (∀ s ∈ st.sources, Effect.stopSource s ∈ (handleMessage st interruptMsg now).2) ∧
    (handleMessage (handleMessage st interruptMsg now).1 (mkAudioMsg bs) now2).2 =
      [Effect.audioLevel (3 / 10),
       Effect.startSource (handleMessage st interruptMsg now).1.nextId now2
         (audioDuration bs 24000 1)] := by
  have hi := handleMessage_interrupt st now
  have hctx' : (handleMessage st interruptMsg now).1.outputCtxOpen.isSome := by
    rw [hi]
    simpa using hctx
  have ha := handleMessage_audio (handleMessage st interruptMsg now).1 bs now2 hbs hctx'
  have hz : (handleMessage st interruptMsg now).1.nextStartTime = 0 := by rw [hi]
  refine ⟨by rw [hi], hz, by rw [hi], by rw [hi], ?_, ?_⟩
  · intro s hs
    rw [hi]
    exact List.mem_map_of_mem _ hs
  · rw [ha, hz, max_eq_right hnow2]

/-- **C3, witness.** -/
theorem c3_witness :
    ((0 : ℚ) ≤ 1 ∧ ([7, 8] : List ℕ) ≠ [] ∧
     ({ readyState with sources := [4, 9] } : GLSState).outputCtxOpen.isSome) ∧
    ((handleMessage { readyState with sources := [4, 9] } interruptMsg 3).1.sources = [] ∧
     (handleMessage { readyState with sources := [4, 9] } interruptMsg 3).1.nextStartTime = 0 ∧
     (handleMessage { readyState with sources := [4, 9] } interruptMsg 3).1.currentOutputTranscription = "" ∧
     (handleMessage { readyState with sources := [4, 9] } interruptMsg 3).2 =
       ({ readyState with sources := [4, 9] } : GLSState).sources.map Effect.stopSource ∧
     (∀ s ∈ ({ readyState with sources := [4, 9] } : GLSState).sources,
       Effect.stopSource s ∈ (handleMessage { readyState with sources := [4, 9] } interruptMsg 3).2) ∧
     (handleMessage (handleMessage { readyState with sources := [4, 9] } interruptMsg 3).1
         (mkAudioMsg [7, 8]) 1).2 =
       [Effect.audioLevel (3 / 10),
        Effect.startSource (handleMessage { readyState with sources := [4, 9] } interruptMsg 3).1.nextId 1
          (audioDuration [7, 8] 24000 1)]) :=
  ⟨⟨by decide, by decide, by decide⟩,
   c3_theorem { readyState with sources := [4, 9] } 3 1 [7, 8] (by decide) (by decide) (by decide)⟩

/-- **C10.** An interruption-only message changes exactly the in-flight set
(emptied), the cursor (zeroed) and the model accumulator (cleared) — the
record update pins every other field, in particular the user accumulator —
and its effects are the stop calls only: no `TranscriptionItem` is emitted. -/
theorem c10_theorem (st : GLSState) (now : ℚ) :
    handleMessage st interruptMsg now =
      (({ st with sources := []
                  nextStartTime := 0
                  currentOutputTranscription := "" } : GLSState),
       st.sources.map Effect.stopSource) ∧
    (handleMessage st interruptMsg now).1.currentInputTranscription =
      st.currentInputTranscription ∧
    ∀ e ∈ (handleMessage st interruptMsg now).2, ∀ it : TItem, e ≠ Effect.emitItem it := by
  refine ⟨handleMessage_interrupt st now, by rw [handleMessage_interrupt], ?_⟩
  rw [handleMessage_interrupt]
  intro e he it
  obtain ⟨s, _, rfl⟩ := List.mem_map.mp he
  simp

theorem handleMessage_fragment (st : GLSState) (sp : Speaker) (t : String) (now : ℚ) :
    handleMessage st (mkFragment sp t) now =
      ((match sp with
        | Speaker.user =>
          ({ st with currentInputTranscription := st.currentInputTranscription ++ t } : GLSState)
        | Speaker.model =>
          ({ st with currentOutputTranscription := st.currentOutputTranscription ++ t } : GLSState)),
       []) := by
  cases sp <;>
    (unfold handleMessage appendTranscription handleAudio handleInterruption mkFragment; simp)

theorem runMessages_fragments (ps : List (Speaker × String)) :
    ∀ (st : GLSState) (now : ℚ),
      runMessages st now (ps.map fun p => mkFragment p.1 p.2) =
        (({ st with
              currentInputTranscription :=
                st.currentInputTranscription ++ concatFor Speaker.user ps
              currentOutputTranscription :=
                st.currentOutputTranscription ++ concatFor Speaker.model ps } : GLSState),
         []) := by
  induction ps with
  | nil =>
    intro st now
    simp [runMessages, concatFor]
  | cons f rest ih =>
    intro st now
    obtain ⟨sp, t⟩ := f
    cases sp
    · simp only [List.map_cons, runMessages, handleMessage_fragment, concatFor, ih]
      simp [String.append_assoc]
    · simp only [List.map_cons, runMessages, handleMessage_fragment, concatFor, ih]
      simp [String.append_assoc]

theorem handleMessage_turnComplete (st : GLSState) (now : ℚ) :
    handleMessage st turnCompleteMsg now = flushTurn st := by
  unfold handleMessage appendTranscription handleAudio handleInterruption turnCompleteMsg
  simp

theorem flushTurn_spec (st : GLSState) :
    flushTurn st =
      (({ st with
            currentInputTranscription :=
              if trimmedChars st.currentInputTranscription ≠ [] then ""
              else st.currentInputTranscription
            currentOutputTranscription :=
              if trimmedChars st.currentOutputTranscription ≠ [] then ""
              else st.currentOutputTranscription } : GLSState),
       (if trimmedChars st.currentInputTranscription ≠ [] then
          [Effect.emitItem { speaker := Speaker.user, text := st.currentInputTranscription }]
        else []) ++
       (if trimmedChars st.currentOutputTranscription ≠ [] then
          [Effect.emitItem { speaker := Speaker.model, text := st.currentOutputTranscription }]
        else [])) := by
  unfold flushTurn
  by_cases h1 : trimmedChars st.currentInputTranscription ≠ [] <;>
    by_cases h2 : trimmedChars st.currentOutputTranscription ≠ [] <;>
      simp [h1, h2]

/-- **C4.** Starting from empty accumulators, a stream of per-speaker
partial-text fragments followed by a turn-complete event emits, per
speaker and in user-then-model order, exactly one `TranscriptionItem`
whose text is the concatenation of that speaker's fragments in streaming
order — none at all when the concatenation is empty or whitespace-only —
and each emitted accumulator is cleared. -/
theorem c4_theorem (st : GLSState) (now : ℚ) (ps : List (Speaker × String))
    (hin : st.currentInputTranscription = "")
    (hout : st.currentOutputTranscription = "") :
    (runMessages st now ((ps.map fun p => mkFragment p.1 p.2) ++ [turnCompleteMsg])).2 =
      (if trimmedChars (concatFor Speaker.user ps) ≠ [] then
        [Effect.emitItem { speaker := Speaker.user, text := concatFor Speaker.user ps }]
      else []) ++
      (if trimmedChars (concatFor Speaker.model ps) ≠ [] then
        [Effect.emitItem { speaker := Speaker.model, text := concatFor Speaker.model ps }]
      else []) ∧
    (runMessages st now ((ps.map fun p => mkFragment p.1 p.2) ++ [turnCompleteMsg])).1.currentInputTranscription =
      (if trimmedChars (concatFor Speaker.user ps) ≠ [] then ""
       else concatFor Speaker.user ps) ∧
    (runMessages st now ((ps.map fun p => mkFragment p.1 p.2) ++ [turnCompleteMsg])).1.currentOutputTranscription =
      (if trimmedChars (concatFor Speaker.model ps) ≠ [] then ""
       else concatFor Speaker.model ps) := by
  have hacc := runMessages_fragments ps st now
  rw [hin, hout] at hacc
  have happ : ∀ l : List ServerMsg, ∀ st0 : GLSState,
      runMessages st0 now (l ++ [turnCompleteMsg]) =
        ((flushTurn (runMessages st0 now l).1).1,
         (runMessages st0 now l).2 ++ (flushTurn (runMessages st0 now l).1).2) := by
    intro l
    induction l with
    | nil =>
      intro st0
      simp [runMessages, handleMessage_turnComplete]
    | cons m rest ihl =>
      intro st0
      have h := ihl (handleMessage st0 m now).1
      simp only [List.cons_append, runMessages, List.append_eq, h, List.append_assoc]
  rw [happ, hacc]
  have hs : ({ st with
      currentInputTranscription := "" ++ concatFor Speaker.user ps
      currentOutputTranscription := "" ++ concatFor Speaker.model ps } : GLSState).currentInputTranscription
      = concatFor Speaker.user ps := by simp
  rw [flushTurn_spec]
  refine ⟨by simp, by simp, by simp⟩

/-- **C4, witness.** `input-partial("Hel"), input-partial("lo"),
turn-complete` emits exactly `[{speaker := user, text := "Hello"}]`;
whitespace-only user partials then turn-complete emit nothing. -/
theorem c4_witness :
    (initState.currentInputTranscription = "" ∧
     initState.currentOutputTranscription = "") ∧
    (runMessages initState 0
        (([(Speaker.user, "Hel"), (Speaker.user, "lo")].map fun p => mkFragment p.1 p.2) ++
          [turnCompleteMsg])).2 =
      (if trimmedChars (concatFor Speaker.user [(Speaker.user, "Hel"), (Speaker.user, "lo")]) ≠ [] then
        [Effect.emitItem (TItem.mk Speaker.user
            (concatFor Speaker.user [(Speaker.user, "Hel"), (Speaker.user, "lo")]))]
      else []) ++
      (if trimmedChars (concatFor Speaker.model [(Speaker.user, "Hel"), (Speaker.user, "lo")]) ≠ [] then
        [Effect.emitItem (TItem.mk Speaker.model
            (concatFor Speaker.model [(Speaker.user, "Hel"), (Speaker.user, "lo")]))]
      else []) ∧
    (runMessages initState 0
        (([(Speaker.user, " "), (Speaker.user, "  ")].map fun p => mkFragment p.1 p.2) ++
          [turnCompleteMsg])).2 =
      (if trimmedChars (concatFor Speaker.user [(Speaker.user, " "), (Speaker.user, "  ")]) ≠ [] then
        [Effect.emitItem (TItem.mk Speaker.user
            (concatFor Speaker.user [(Speaker.user, " "), (Speaker.user, "  ")]))]
      else []) ++
      (if trimmedChars (concatFor Speaker.model [(Speaker.user, " "), (Speaker.user, "  ")]) ≠ [] then
        [Effect.emitItem (TItem.mk Speaker.model
            (concatFor Speaker.model [(Speaker.user, " "), (Speaker.user, "  ")]))]
      else []) ∧
    concatFor Speaker.user [(Speaker.user, "Hel"), (Speaker.user, "lo")] = "Hello" ∧
    trimmedChars (concatFor Speaker.user [(Speaker.user, " "), (Speaker.user, "  ")]) = [] :=
  ⟨⟨by decide, by decide⟩,
   (c4_theorem initState 0 [(Speaker.user, "Hel"), (Speaker.user, "lo")] (by decide) (by decide)).1,
   (c4_theorem initState 0 [(Speaker.user, " "), (Speaker.user, "  ")] (by decide) (by decide)).1,
   by decide, by decide⟩

/-! ## Session lifecycle (C5–C9) -/

/-- **C5, counterexample.** After `connect`, `session-opened` (status
`connected`) and `session-error` (status `error`), a video-frame send is
not a no-op: `sessionPromise` is never cleared on error, so the frame is
still delivered to the remote session. -/
theorem c5_counterexample :
    (runEvents initState
        [CEvent.connect, CEvent.opened, CEvent.errored, CEvent.sendVideoFrame "frame"]).2 =
      [Effect.statusChange Status.connected, Effect.statusChange Status.error] ∧
    (runEvents initState
        [CEvent.connect, CEvent.opened, CEvent.errored,
         CEvent.sendVideoFrame "frame"]).1.sentToSession =
      [SendData.video "frame"] := by
  decide

/-- **C5 (amended).** `connect()` then `session-opened` reports status
`connected`, and a following `session-error` reports status `error`; but
subsequent sends are no-ops only while `sessionPromise` is null (before
`connect` or after `disconnect`) — after a successful open they are still
forwarded to the session even once the status is `error`. -/
theorem c5_theorem (st : GLSState) (d : String) (hnull : st.sessionP = SessionP.null) :
    (runEvents initState [CEvent.connect, CEvent.opened]).2 =
      [Effect.statusChange Status.connected] ∧
    (runEvents initState [CEvent.connect, CEvent.opened, CEvent.errored]).2 =
      [Effect.statusChange Status.connected, Effect.statusChange Status.error] ∧
    stepEvent st (CEvent.sendVideoFrame d) = (st, []) ∧
    (runEvents initState [CEvent.connect, CEvent.opened, CEvent.errored,
        CEvent.sendVideoFrame d]).1.sentToSession = [SendData.video d] := by
  refine ⟨by decide, by decide, ?_, ?_⟩
  · simp [stepEvent, doSend, hnull]
  · simp [runEvents, stepEvent, doSend, initState]

/-- **C5, witness.** -/
theorem c5_witness :
    initState.sessionP = SessionP.null ∧
    ((runEvents initState [CEvent.connect, CEvent.opened]).2 =
      [Effect.statusChange Status.connected] ∧
     (runEvents initState [CEvent.connect, CEvent.opened, CEvent.errored]).2 =
      [Effect.statusChange Status.connected, Effect.statusChange Status.error] ∧
     stepEvent initState (CEvent.sendVideoFrame "f") = (initState, []) ∧
     (runEvents initState [CEvent.connect, CEvent.opened, CEvent.errored,
        CEvent.sendVideoFrame "f"]).1.sentToSession = [SendData.video "f"]) :=
  ⟨by decide, c5_theorem initState "f" (by decide)⟩

/-- **C6, counterexample.** A send issued after `connect()` but before the
session handle resolves is not dropped: `sessionPromise.then(...)` queues
it on the pending promise and it is delivered when the session opens. -/
theorem c6_counterexample :
    (runEvents initState [CEvent.connect, CEvent.sendVideoFrame "early"]).1.sessionP =
      SessionP.pending [SendData.video "early"] ∧
    (runEvents initState
        [CEvent.connect, CEvent.sendVideoFrame "early", CEvent.opened]).1.sentToSession =
      [SendData.video "early"] := by
  decide

/-- **C6 (amended).** Sends issued while `sessionPromise` is null (before
any `connect`, or after `disconnect`) are silently dropped — no state
change, no effect, for both video frames and audio chunks; sends issued
while the promise is pending are buffered on the promise chain and are
delivered to the session when it opens. -/
theorem c6_theorem (st st2 : GLSState) (d : String) (samples : List ℚ) (q : List SendData)
    (hnull : st.sessionP = SessionP.null) (hpend : st2.sessionP = SessionP.pending q) :
    stepEvent st (CEvent.sendVideoFrame d) = (st, []) ∧
    stepEvent st (CEvent.sendAudioChunk samples) = (st, []) ∧
    (stepEvent st2 (CEvent.sendVideoFrame d)).1.sessionP =
      SessionP.pending (q ++ [SendData.video d]) ∧
    (stepEvent (stepEvent st2 (CEvent.sendVideoFrame d)).1 CEvent.opened).1.sentToSession =
      st2.sentToSession ++ (q ++ [SendData.video d]) := by
  refine ⟨?_, ?_, ?_, ?_⟩ <;> simp [stepEvent, doSend, hnull, hpend]

/-- **C6, witness.** -/
theorem c6_witness :
    (initState.sessionP = SessionP.null ∧
     (stepEvent initState CEvent.connect).1.sessionP = SessionP.pending []) ∧
    (stepEvent initState (CEvent.sendVideoFrame "v") = (initState, []) ∧
     stepEvent initState (CEvent.sendAudioChunk [0]) = (initState, []) ∧
     (stepEvent (stepEvent initState CEvent.connect).1 (CEvent.sendVideoFrame "v")).1.sessionP =
       SessionP.pending ([] ++ [SendData.video "v"]) ∧
     (stepEvent (stepEvent (stepEvent initState CEvent.connect).1
         (CEvent.sendVideoFrame "v")).1 CEvent.opened).1.sentToSession =
       (stepEvent initState CEvent.connect).1.sentToSession ++ ([] ++ [SendData.video "v"])) :=
  ⟨⟨by decide, by decide⟩,
   c6_theorem initState (stepEvent initState CEvent.connect).1 "v" [0] []
     (by decide) (by decide)⟩

/-- **C7, counterexample.** `disconnect` from a mid-session state closes the
session and the contexts and reports `disconnected`, but it does not clear
the transcript accumulators and does not reset the playback cursor; and a
remote `session-closed` event performs no teardown at all beyond the status
report. -/
theorem c7_counterexample :
    (stepEvent c7State CEvent.disconnect).2 =
      [Effect.closeSession, Effect.statusChange Status.disconnected] ∧
    (stepEvent c7State CEvent.disconnect).1.currentInputTranscription = "hi" ∧
    (stepEvent c7State CEvent.disconnect).1.currentOutputTranscription = "yo" ∧
    (stepEvent c7State CEvent.disconnect).1.nextStartTime = 5 ∧
    ¬((stepEvent c7State CEvent.disconnect).1.currentInputTranscription = "" ∧
      (stepEvent c7State CEvent.disconnect).1.currentOutputTranscription = "" ∧
      (stepEvent c7State CEvent.disconnect).1.nextStartTime = 0) ∧
    stepEvent c7State CEvent.closed = (c7State, [Effect.statusChange Status.disconnected]) := by
  decide

/-- **C7 (amended).** An explicit `disconnect` clears the session handle,
closes both audio contexts, closes the session when one is resolved, and
reports `disconnected` — while leaving the transcript accumulators and the
playback cursor untouched; the accumulators are instead cleared at the
start of the next `connect()` (the cursor is reset only by interruption),
and a remote `session-closed` event only reports `disconnected`. -/
theorem c7_theorem (st : GLSState) :
    stepEvent st CEvent.disconnect =
      (({ st with sessionP := SessionP.null
                  inputCtxOpen := closeCtx st.inputCtxOpen
                  outputCtxOpen := closeCtx st.outputCtxOpen } : GLSState),
       (match st.sessionP with
        | SessionP.resolved => [Effect.closeSession]
        | _ => []) ++ [Effect.statusChange Status.disconnected]) ∧
    (stepEvent st CEvent.disconnect).1.currentInputTranscription =
      st.currentInputTranscription ∧
    (stepEvent st CEvent.disconnect).1.currentOutputTranscription =
      st.currentOutputTranscription ∧
    (stepEvent st CEvent.disconnect).1.nextStartTime = st.nextStartTime ∧
    Effect.statusChange Status.disconnected ∈ (stepEvent st CEvent.disconnect).2 ∧
    (stepEvent st CEvent.connect).1.currentInputTranscription = "" ∧
    (stepEvent st CEvent.connect).1.currentOutputTranscription = "" ∧
    (stepEvent st CEvent.connect).1.nextStartTime = st.nextStartTime ∧
    stepEvent st CEvent.closed = (st, [Effect.statusChange Status.disconnected]) := by
  refine ⟨rfl, rfl, rfl, rfl, ?_, rfl, rfl, rfl, rfl⟩
  simp [stepEvent]

theorem closeCtx_closeCtx (o : Option Bool) : closeCtx (closeCtx o) = closeCtx o := by
  cases o <;> rfl

/-- **C8.** Disconnect is idempotent: a second `disconnect` right after a
first one changes no controller field and emits exactly the `disconnected`
status report again (the repeated `close()` on an already-closed context
changes nothing); likewise `disconnect` on the freshly constructed
controller (no session, no contexts) only reports `disconnected`. -/
theorem c8_theorem (st : GLSState) :
    stepEvent (stepEvent st CEvent.disconnect).1 CEvent.disconnect =
      ((stepEvent st CEvent.disconnect).1, [Effect.statusChange Status.disconnected]) ∧
    stepEvent initState CEvent.disconnect =
      (initState, [Effect.statusChange Status.disconnected]) := by
  constructor
  · simp [stepEvent, closeCtx_closeCtx]
  · decide

/-- **C9.** A message carrying both an output and an input transcription
fragment appends only the output (model) fragment: the `else if` in
`handleMessage` never reads `inputTranscription` when `outputTranscription`
is present, so the user accumulator is unchanged and no other effect is
produced. -/
theorem c9_theorem (st : GLSState) (tOut tIn : String) (now : ℚ) :
    (handleMessage st
        { outputTranscription := some tOut, inputTranscription := some tIn } now).1 =
      ({ st with currentOutputTranscription := st.currentOutputTranscription ++ tOut } : GLSState) ∧
    (handleMessage st
        { outputTranscription := some tOut, inputTranscription := some tIn } now).1.currentInputTranscription =
      st.currentInputTranscription ∧
    (handleMessage st
        { outputTranscription := some tOut, inputTranscription := some tIn } now).2 = [] := by
  unfold handleMessage appendTranscription handleAudio handleInterruption
  simp

